import Mathlib

/-!
Verification of the orchestration and semantic-memory core of the agentic
content generation system.  The definitions below are a shallow embedding of
the Python sources: `services/memory.py` (chunking, duplicate detection,
semantic search, relationship bonus) and `services/workflow_orchestrator.py`
(the generation and quality loop, the ingestion phase, pipeline entry-point
validation, and the running statistics).  External capabilities (embedding
model, similarity of embeddings, agents) appear as explicit function
parameters; machine floats are modelled by rational numbers.
-/

namespace AgenticSpec

/-! ## Chunking: `AgentMemory._create_and_store_chunks` (memory.py 61-99)

The Python loop is

    start = 0
    while start < len(content):
        end = min(start + self.config.chunk_size, len(content))
        ... append chunk for content[start:end] ...
        start = end - self.config.chunk_overlap

We embed the loop with explicit fuel, recording the produced character
windows.  The `start` variable lives in `ℤ` because the Python value
`end - chunk_overlap` can drop below zero. -/

/-- Fuelled run of the chunking while-loop.  `chunkWindows C O L fuel start`
returns `some ws` with the list of `(start, end)` windows produced when the
loop exits within `fuel` iterations, and `none` when the loop is still
running after `fuel` iterations. -/
def chunkWindows (C O L : ℕ) : ℕ → ℤ → Option (List (ℤ × ℤ))
  | 0, start => if start < (L : ℤ) then none else some []
  | fuel + 1, start =>
      if start < (L : ℤ) then
        match chunkWindows C O L fuel (min (start + (C : ℤ)) (L : ℤ) - (O : ℤ)) with
        | none => none
        | some ws => some ((start, min (start + (C : ℤ)) (L : ℤ)) :: ws)
      else some []

/-! ## Statistics: the running average quality score
(workflow_orchestrator.py 298-307 together with worker, 90-106)

At the end of `_execute_generation_quality_loop` the orchestrator updates
`average_quality_score` from the counters `successful_generations` and
`failed_generations`; the worker increments those counters only after the
pipeline call returns, so during the update they count the previously
completed tasks. -/

/-- Embedding of the statistics update at workflow_orchestrator.py 298-307:
`total_tasks = successful + failed`; on the first sample the average becomes
the final score, otherwise
`(average * (total_tasks - 1) + final_score) / max(1, total_tasks)`. -/
def update_average_quality (successful_generations failed_generations : ℕ)
    (average_quality_score final_score : ℚ) : ℚ :=
  let total_tasks := successful_generations + failed_generations
  if total_tasks ≤ 0 then final_score
  else (average_quality_score * ((total_tasks : ℚ) - 1) + final_score) /
    ((max 1 total_tasks : ℕ) : ℚ)

/-- Sequence of completed tasks with final quality scores `scores`, every one
successful: each task first runs the statistics update with the counters as
they stand (previously completed tasks only), then the worker increments
`successful_generations`.  Returns the final counter and average. -/
def run_completed_tasks (scores : List ℚ) : ℕ × ℚ :=
  scores.foldl (fun st s => (st.1 + 1, update_average_quality st.1 0 st.2 s)) (0, 0)

/-! ## Relationship bonus: `AgentMemory._calculate_relationship_bonus`
(memory.py 187-200) -/

/-- Stored concept row: its id and the id of the document it was extracted
from. -/
structure ConceptRec where
  id : ℕ
  document_id : ℕ
  deriving DecidableEq

/-- Stored relationship row: ids of its two endpoint concepts. -/
structure RelationshipRec where
  concept1_id : ℕ
  concept2_id : ℕ
  deriving DecidableEq

/-- Number of relationship rows touching any concept of the given document:
for each concept of the document, the relationships having it as first
endpoint plus those having it as second endpoint (memory.py 192-197). -/
def relationship_count (concepts : List ConceptRec) (rels : List RelationshipRec)
    (document_id : ℕ) : ℕ :=
  ((concepts.filter (fun c => c.document_id == document_id)).map (fun c =>
    (rels.filter (fun r => r.concept1_id == c.id)).length +
    (rels.filter (fun r => r.concept2_id == c.id)).length)).sum

/-- Normalisation of the relationship count into a bonus, memory.py 200:
`min(relationship_count * 0.02, 0.2)`. -/
def bonus_of_count (n : ℕ) : ℚ :=
  min ((n : ℚ) * (2 / 100)) (2 / 10)

/-- Embedding of `AgentMemory._calculate_relationship_bonus`: a missing
document id yields bonus `0`, otherwise the normalised relationship count. -/
def calculate_relationship_bonus (concepts : List ConceptRec)
    (rels : List RelationshipRec) (document_id : Option ℕ) : ℚ :=
  match document_id with
  | none => 0
  | some d => bonus_of_count (relationship_count concepts rels d)

lemma bonus_of_count_nonneg (n : ℕ) : 0 ≤ bonus_of_count n := by
  unfold bonus_of_count
  refine le_min (by positivity) (by norm_num)

lemma bonus_of_count_mono {n m : ℕ} (h : n ≤ m) :
    bonus_of_count n ≤ bonus_of_count m := by
  unfold bonus_of_count
  refine min_le_min (mul_le_mul_of_nonneg_right ?_ (by norm_num)) le_rfl
  exact_mod_cast h

lemma bonus_of_count_le (n : ℕ) : bonus_of_count n ≤ 2 / 10 :=
  min_le_right _ _

lemma calculate_relationship_bonus_nonneg (concepts : List ConceptRec)
    (rels : List RelationshipRec) (d : Option ℕ) :
    0 ≤ calculate_relationship_bonus concepts rels d := by
  cases d with
  | none => simp [calculate_relationship_bonus]
  | some d => exact bonus_of_count_nonneg _

lemma calculate_relationship_bonus_le (concepts : List ConceptRec)
    (rels : List RelationshipRec) (d : Option ℕ) :
    calculate_relationship_bonus concepts rels d ≤ 2 / 10 := by
  cases d with
  | none => norm_num [calculate_relationship_bonus]
  | some d => exact bonus_of_count_le _

/-! ## Memory store: `AgentMemory.store_document` and `check_duplicate`
(memory.py 47-116)

Documents and chunks are embedded as plain records; the text of a document is
a list of characters, the embedding capability is an explicit function
`List Char → List ℚ`. -/

/-- Source document: identity, title and full text (the remaining Python
fields play no role in the stored-state claims). -/
structure Document where
  id : ℕ
  title : String
  content : List Char
  deriving DecidableEq

/-- Stored content chunk: parent document id, running chunk index, the slice
of text it covers and its embedding vector. -/
structure StoredChunk where
  document_id : ℕ
  chunk_index : ℕ
  content : List Char
  embedding : List ℚ
  deriving DecidableEq

/-- State of the memory store: the persisted documents and chunks, in
insertion order. -/
structure MemState where
  documents : List Document
  chunks : List StoredChunk
  deriving DecidableEq

/-- Python index clamping for a slice bound: a negative index counts from the
end of the list, and both directions clamp into `[0, n]`. -/
def pyIndex (n : ℕ) (i : ℤ) : ℕ :=
  if i < 0 then (max (i + (n : ℤ)) 0).toNat else min i.toNat n

/-- Python slice `s[a:b]` on a list of characters. -/
def pySlice (s : List Char) (a b : ℤ) : List Char :=
  (s.take (pyIndex s.length b)).drop (pyIndex s.length a)

/-- Dot product of two embedding vectors (missing tail entries contribute
nothing, as in a componentwise product of equal-length vectors). -/
def dot (u v : List ℚ) : ℚ :=
  (List.zipWith (fun a b => a * b) u v).sum

/-- Exact rational decision of `cosine_similarity([u], [v])[0][0] > 0.95`
(memory.py 109-113): for real vectors, `dot u v / (‖u‖ * ‖v‖) > 19/20` holds
iff the dot product is positive and `361 * ‖u‖² * ‖v‖² < 400 * (dot u v)²`,
which avoids square roots.  A zero vector yields similarity 0 in sklearn and
is likewise rejected here because its dot product is not positive. -/
def cosSimGT (u v : List ℚ) : Bool :=
  decide (0 < dot u v) &&
    decide (361 * (dot u u * dot v v) < 400 * (dot u v * dot u v))

/-- Embedding of `AgentMemory.check_duplicate` (memory.py 101-116): embed the
full document text and compare against the first 100 stored chunks, skipping
chunks with an empty embedding; any similarity above 0.95 flags a
duplicate. -/
def check_duplicate (embed : List Char → List ℚ) (st : MemState)
    (content : List Char) : Bool :=
  (st.chunks.take 100).any (fun ch =>
    !ch.embedding.isEmpty && cosSimGT (embed content) ch.embedding)

/-- Chunk records built from the windows produced by the chunking loop
(memory.py 70-91): chunk i holds the slice of the document text for window i
and the embedding of that slice. -/
def chunksOf (embed : List Char → List ℚ) (doc : Document)
    (ws : List (ℤ × ℤ)) : List StoredChunk :=
  ws.enum.map (fun p =>
    { document_id := doc.id, chunk_index := p.1,
      content := pySlice doc.content p.2.1 p.2.2,
      embedding := embed (pySlice doc.content p.2.1 p.2.2) })

/-- Embedding of `AgentMemory.store_document` (memory.py 47-59): a duplicate
document is skipped (`false`), otherwise the document and its chunks are
persisted (`true`).  The chunking loop runs on the given fuel; `none` models
a call that is still running after that many loop iterations. -/
def store_document (embed : List Char → List ℚ)
    (chunk_size chunk_overlap fuel : ℕ) (st : MemState) (doc : Document) :
    Option (MemState × Bool) :=
  if check_duplicate embed st doc.content then some (st, false)
  else
    match chunkWindows chunk_size chunk_overlap doc.content.length fuel 0 with
    | none => none
    | some ws =>
        some (⟨st.documents ++ [doc], st.chunks ++ chunksOf embed doc ws⟩, true)

/-- Adversarial but deterministic embedding for the C7 counterexample: the
two-character text gets a vector orthogonal to the vector of every other
text. -/
def embedSplit (s : List Char) : List ℚ :=
  if s = ['a', 'b'] then [1, 0] else [0, 1]

/-! ## Semantic search: `AgentMemory.search_relevant_content`
(memory.py 131-185)

The query-expansion call is external (on failure the code falls back to the
bare query), so the expanded query list is taken as an input.  The
composition of the embedding model with cosine similarity is abstracted into
an explicit function `similarity : Q → SearchChunk → ℚ`; the claim under
study concerns the filtering, scoring, deduplication, sorting and truncation
that the code performs on those numbers. -/

/-- Chunk as seen by the search: its id, embedding, content and the parent
document id read from its metadata (absent when the metadata lacks it). -/
structure SearchChunk where
  id : ℕ
  embedding : List ℚ
  content : List Char
  document_id : Option ℕ

/-- Result record assembled at memory.py 163-171. -/
structure SearchResult (Q : Type) where
  content : List Char
  id : ℕ
  similarity : ℚ
  relationship_bonus : ℚ
  score : ℚ
  query_used : Q

/-- All results gathered over the expanded queries (memory.py 146-172):
for each query in order, each of the first 200 chunks with a nonempty
embedding whose similarity reaches min_score contributes a result whose
score is the similarity plus the relationship bonus of its parent
document. -/
def search_all_results {Q : Type} (concepts : List ConceptRec)
    (rels : List RelationshipRec) (similarity : Q → SearchChunk → ℚ)
    (expanded_queries : List Q) (chunks : List SearchChunk)
    (min_score : ℚ) : List (SearchResult Q) :=
  expanded_queries.flatMap (fun q =>
    (chunks.take 200).filterMap (fun ch =>
      if ch.embedding.isEmpty then none
      else if min_score ≤ similarity q ch then
        some { content := ch.content, id := ch.id,
               similarity := similarity q ch,
               relationship_bonus :=
                 calculate_relationship_bonus concepts rels ch.document_id,
               score := similarity q ch +
                 calculate_relationship_bonus concepts rels ch.document_id,
               query_used := q }
      else none))

/-- Deduplication loop at memory.py 175-180: walk the results in order,
keeping a result only when its chunk id has not been seen yet. -/
def dedup_first_by_id {Q : Type} :
    List ℕ → List (SearchResult Q) → List (SearchResult Q)
  | _, [] => []
  | seen, r :: rest =>
      if r.id ∈ seen then dedup_first_by_id seen rest
      else r :: dedup_first_by_id (r.id :: seen) rest

/-- Embedding of `search_relevant_content`: gather, deduplicate keeping the
first occurrence per chunk id, sort by score descending (the Python list
sort is a stable sort, modelled by a stable insertion sort), and return the
first n_results entries. -/
def search_relevant_content {Q : Type} (concepts : List ConceptRec)
    (rels : List RelationshipRec) (similarity : Q → SearchChunk → ℚ)
    (expanded_queries : List Q) (chunks : List SearchChunk)
    (n_results : ℕ) (min_score : ℚ) : List (SearchResult Q) :=
  let unique_results := dedup_first_by_id []
    (search_all_results concepts rels similarity expanded_queries chunks min_score)
  (unique_results.insertionSort (fun a b => b.score ≤ a.score)).take n_results

/-- Concrete similarity function for the C2 counterexample: query 0 rates
every chunk 1/2, query 1 rates every chunk 9/10. -/
def simTwoQueries : ℕ → SearchChunk → ℚ :=
  fun q _ => if q = 0 then 1 / 2 else 9 / 10

/-- Concrete similarity function for the C2 witness: chunk 7 rates 1/2,
every other chunk 9/10, for every query. -/
def simByChunk : ℕ → SearchChunk → ℚ :=
  fun _ ch => if ch.id = 7 then 1 / 2 else 9 / 10

/-! ## Generation and quality loop:
`WorkflowOrchestrator._execute_generation_quality_loop`
(workflow_orchestrator.py 204-315)

The two agents are modelled as oracles indexed by the iteration number
(any concrete execution of the Python loop corresponds to one such pair of
oracles; the dependence of the agents on the task, the plan and the carried
recommendations is absorbed into the oracle).  The type `G` stands for the
GeneratedContent objects. -/

/-- Outcome of one `generation_agent.process` call: a valid GeneratedContent,
an object failing the isinstance check (workflow_orchestrator.py 243-245), or
a raised exception (caught at 250-252). -/
inductive GenOutcome (G : Type) where
  | ok (content : G)
  | invalid
  | raises

/-- Outcome of one `quality_agent.process` call: a success result carrying
the overall score and recommendations, a result whose status is not success
(its reported score is what `quality_metrics.overall_score` reads on it, 0
when absent), or a raised exception (caught at 283-285). -/
inductive QualOutcome where
  | ok (overall_score : ℚ) (recommendations : List String)
  | failStatus (reported_score : ℚ)
  | raises

/-- Value of the Python variable `content_obj`: initially None, the latest
valid GeneratedContent, or an invalid object returned by the generation
agent. -/
inductive LoopContent (G : Type) where
  | none
  | valid (content : G)
  | invalid

/-- Result dictionary built at workflow_orchestrator.py 309-315, together
with the ghost counter `pairs_produced` counting the
(GeneratedContent, QualityReport) pairs the loop produced. -/
structure LoopResult (G : Type) where
  status : String
  content : LoopContent G
  final_score : ℚ
  meets_quality_standards : Bool
  iterations_used : ℕ
  pairs_produced : ℕ

/-- Construction of the final result (workflow_orchestrator.py 287-315): the
status is unconditionally success, `meets_quality_standards` compares the
final score against the threshold. -/
def finalizeLoop {G : Type} (min_quality_score : ℚ) (iteration : ℕ)
    (final_score : ℚ) (content : LoopContent G) (pairs : ℕ) : LoopResult G :=
  { status := "success", content := content, final_score := final_score,
    meets_quality_standards := decide (min_quality_score ≤ final_score),
    iterations_used := iteration, pairs_produced := pairs }

/-- Embedding of the while-loop at workflow_orchestrator.py 223-285, by
recursion on the remaining iteration budget.  State: current iteration
count, the score carried in `quality_result`, `content_obj`, the carried
recommendations, and the pair counter.  Generation failure (exception or
invalid object) and quality failure (exception or non-success status) each
break out of the loop; a score at or above the threshold breaks out; a lower
score carries the recommendations into the next round. -/
def genQualityLoop {G : Type} (gen : ℕ → GenOutcome G) (qual : ℕ → QualOutcome)
    (min_quality_score : ℚ) :
    ℕ → ℕ → ℚ → LoopContent G → List String → ℕ → LoopResult G
  | 0, iteration, score, content, _, pairs =>
      finalizeLoop min_quality_score iteration score content pairs
  | rem + 1, iteration, score, content, _, pairs =>
      match gen (iteration + 1) with
      | GenOutcome.raises =>
          finalizeLoop min_quality_score (iteration + 1) score content pairs
      | GenOutcome.invalid =>
          finalizeLoop min_quality_score (iteration + 1) score LoopContent.invalid pairs
      | GenOutcome.ok c =>
          match qual (iteration + 1) with
          | QualOutcome.raises =>
              finalizeLoop min_quality_score (iteration + 1) score (LoopContent.valid c) pairs
          | QualOutcome.failStatus s =>
              finalizeLoop min_quality_score (iteration + 1) s (LoopContent.valid c) (pairs + 1)
          | QualOutcome.ok s recs2 =>
              if min_quality_score ≤ s then
                finalizeLoop min_quality_score (iteration + 1) s (LoopContent.valid c) (pairs + 1)
              else
                genQualityLoop gen qual min_quality_score rem (iteration + 1) s
                  (LoopContent.valid c) recs2 (pairs + 1)

/-- Entry into the loop (workflow_orchestrator.py 212-221): iteration 0,
initial score 0 (the seeded quality_result), no content, no
recommendations. -/
def execute_generation_quality_loop {G : Type} (gen : ℕ → GenOutcome G)
    (qual : ℕ → QualOutcome) (max_iterations : ℕ) (min_quality_score : ℚ) :
    LoopResult G :=
  genQualityLoop gen qual min_quality_score max_iterations 0 0 LoopContent.none [] 0

lemma chunkWindows_exit (C O L : ℕ) (fuel : ℕ) :
    chunkWindows C O L fuel L = some [] := by
  cases fuel with
  | zero => simp [chunkWindows]
  | succ n => simp [chunkWindows]

lemma chunkWindows_single (C L fuel : ℕ) (hL : 0 < L) (hC : L ≤ C)
    (hfuel : 1 ≤ fuel) :
    chunkWindows C 0 L fuel 0 = some [((0 : ℤ), (L : ℤ))] := by
  cases fuel with
  | zero => omega
  | succ n =>
      have hlt : (0 : ℤ) < (L : ℤ) := by exact_mod_cast hL
      have hmin : min ((0 : ℤ) + (C : ℤ)) ((L : ℤ)) = (L : ℤ) := by
        rw [zero_add, min_eq_right (by exact_mod_cast hC)]
      simp only [chunkWindows, if_pos hlt, Nat.cast_zero, sub_zero, hmin,
        chunkWindows_exit]

lemma pyIndex_zero (n : ℕ) : pyIndex n 0 = 0 := by
  simp [pyIndex]

lemma pyIndex_natCast (n m : ℕ) : pyIndex n (m : ℤ) = min m n := by
  unfold pyIndex
  rw [if_neg (by omega)]
  simp

lemma pySlice_full (s : List Char) : pySlice s 0 (s.length : ℤ) = s := by
  simp [pySlice, pyIndex_zero, pyIndex_natCast]

/-- C1: the claim states that for every document of length L ≥ 1 and every
configuration with 0 ≤ chunk_overlap < chunk_size, the chunking loop invoked
by store_document terminates and covers [0, L).  The code disagrees: once a
window reaches the end of the text, `start = end - chunk_overlap` moves start
back below L whenever the overlap is positive, and the loop reproduces the
final window forever.  Concretely, with chunk_size 3, chunk_overlap 1 and a
document of length 5, no amount of fuel makes the loop finish. -/
theorem chunking_diverges_with_positive_overlap :
    ∀ fuel : ℕ, chunkWindows 3 1 5 fuel 0 = none := by
  have h4 : ∀ fuel : ℕ, chunkWindows 3 1 5 fuel 4 = none := by
    intro fuel
    induction fuel with
    | zero => simp [chunkWindows]
    | succ n ih =>
        have hmin : min ((4 : ℤ) + (3 : ℕ)) ((5 : ℕ) : ℤ) - ((1 : ℕ) : ℤ) = 4 := by
          norm_num
        simp only [chunkWindows, hmin, ih]
        norm_num
  have h2 : ∀ fuel : ℕ, chunkWindows 3 1 5 fuel 2 = none := by
    intro fuel
    cases fuel with
    | zero => simp [chunkWindows]
    | succ n =>
        have hmin : min ((2 : ℤ) + (3 : ℕ)) ((5 : ℕ) : ℤ) - ((1 : ℕ) : ℤ) = 4 := by
          norm_num
        simp only [chunkWindows, hmin, h4 n]
        norm_num
  intro fuel
  cases fuel with
  | zero => simp [chunkWindows]
  | succ n =>
      have hmin : min ((0 : ℤ) + (3 : ℕ)) ((5 : ℕ) : ℤ) - ((1 : ℕ) : ℤ) = 2 := by
        norm_num
      simp only [chunkWindows, hmin, h2 n]
      norm_num

/-- C10: the claim states that after completed tasks with scores s_1..s_n the
average_quality_score statistic equals their exact arithmetic mean.  The code
updates the average before the worker increments the success and failure
counters, so the divisor `max(1, total_tasks)` and the weight
`total_tasks - 1` are both one short: after two completed tasks with scores
100 and 0 the stored average is 0, while the claimed aggregate is 50. -/
theorem average_quality_score_bug :
    (run_completed_tasks [100, 0]).2 = 0 ∧
    ([(100 : ℚ), 0].sum / ([(100 : ℚ), 0].length : ℚ) = 50) ∧
    (0 : ℚ) ≠ 50 := by
  refine ⟨?_, by norm_num, by norm_num⟩
  simp [run_completed_tasks, update_average_quality]

/-- C8: among two chunks with identical raw similarity, the one whose parent
document has at least as many concept relationships receives a combined score
at least as large, and the relationship bonus never exceeds the cap 0.2
(= 2/10): the bonus `min(relationship_count * 0.02, 0.2)` is monotone in the
relationship count and bounded by the cap. -/
theorem relationship_bonus_monotone (concepts : List ConceptRec)
    (rels : List RelationshipRec) (d1 d2 : ℕ) (similarity : ℚ)
    (h : relationship_count concepts rels d1 ≤ relationship_count concepts rels d2) :
    similarity + calculate_relationship_bonus concepts rels (some d1) ≤
      similarity + calculate_relationship_bonus concepts rels (some d2) ∧
    ∀ d : Option ℕ, calculate_relationship_bonus concepts rels d ≤ 2 / 10 := by
  constructor
  · have := bonus_of_count_mono h
    simpa [calculate_relationship_bonus] using this
  · intro d
    exact calculate_relationship_bonus_le concepts rels d

/-- Witness for C8 at a concrete store: one document (id 1) with a single
concept and one relationship, another document (id 2) with no concepts. -/
theorem relationship_bonus_monotone_witness :
    relationship_count [⟨10, 2⟩] [⟨10, 10⟩] 1 ≤ relationship_count [⟨10, 2⟩] [⟨10, 10⟩] 2 ∧
    (1 : ℚ) / 2 + calculate_relationship_bonus [⟨10, 2⟩] [⟨10, 10⟩] (some 1) ≤
      (1 : ℚ) / 2 + calculate_relationship_bonus [⟨10, 2⟩] [⟨10, 10⟩] (some 2) := by
  have h : relationship_count [⟨10, 2⟩] [⟨10, 10⟩] 1 ≤
      relationship_count [⟨10, 2⟩] [⟨10, 10⟩] 2 := by decide
  exact ⟨h, (relationship_bonus_monotone [⟨10, 2⟩] [⟨10, 10⟩] 1 2 (1 / 2) h).1⟩

/-- C7: the claim states that storing the same document content twice (with a
deterministic embedding) always stores exactly one document and one chunk set,
the second call being skipped as a duplicate.  The code only compares the
embedding of the full text against the embeddings of stored chunks; for a
document that spans several chunks nothing ties those vectors together.  With
chunk_size 1 the two-character text "ab" is stored as chunks "a" and "b", and
under the deterministic embedding `embedSplit` the full-text vector is
orthogonal to every chunk vector, so the second call stores the document
again: two documents end up stored and the second call reports stored, not
skipped. -/
theorem store_document_dedup_counterexample :
    ∃ st1 st2 : MemState,
      store_document embedSplit 1 0 10 ⟨[], []⟩ ⟨1, "d1", ['a', 'b']⟩ = some (st1, true) ∧
      store_document embedSplit 1 0 10 st1 ⟨2, "d2", ['a', 'b']⟩ = some (st2, true) ∧
      st2.documents.length = 2 := by
  refine ⟨⟨[⟨1, "d1", ['a', 'b']⟩], [⟨1, 0, ['a'], [0, 1]⟩, ⟨1, 1, ['b'], [0, 1]⟩]⟩,
    ⟨[⟨1, "d1", ['a', 'b']⟩, ⟨2, "d2", ['a', 'b']⟩],
      [⟨1, 0, ['a'], [0, 1]⟩, ⟨1, 1, ['b'], [0, 1]⟩,
       ⟨2, 0, ['a'], [0, 1]⟩, ⟨2, 1, ['b'], [0, 1]⟩]⟩, by decide, ?_, rfl⟩
  have hdup : check_duplicate embedSplit
      ⟨[⟨1, "d1", ['a', 'b']⟩], [⟨1, 0, ['a'], [0, 1]⟩, ⟨1, 1, ['b'], [0, 1]⟩]⟩
      ['a', 'b'] = false := by
    simp [check_duplicate, cosSimGT, dot, embedSplit]
  simp only [store_document, hdup, Bool.false_eq_true, if_false]
  decide

/-- C7 (amended): storing the same content twice is idempotent provided the
document fits in a single chunk.  For chunk_overlap 0 (the only configuration
on which the chunking loop terminates, see C1), a nonempty document whose
text has length at most chunk_size and whose embedding vector is nonzero is
stored by the first call as one document with one chunk, and the second call
with the same content is a no-op reporting the document as a skipped
duplicate. -/
theorem store_document_dedup (embed : List Char → List ℚ)
    (doc1 doc2 : Document) (C fuel : ℕ)
    (hsame : doc2.content = doc1.content)
    (hpos : 0 < doc1.content.length)
    (hfit : doc1.content.length ≤ C)
    (hfuel : 1 ≤ fuel)
    (hnz : 0 < dot (embed doc1.content) (embed doc1.content)) :
    ∃ st1 : MemState,
      store_document embed C 0 fuel ⟨[], []⟩ doc1 = some (st1, true) ∧
      st1.documents = [doc1] ∧ st1.chunks.length = 1 ∧
      store_document embed C 0 fuel st1 doc2 = some (st1, false) := by
  have hne : embed doc1.content ≠ [] := by
    intro h
    rw [h] at hnz
    simp [dot] at hnz
  have h39 : 361 * (dot (embed doc1.content) (embed doc1.content) *
      dot (embed doc1.content) (embed doc1.content)) <
      400 * (dot (embed doc1.content) (embed doc1.content) *
      dot (embed doc1.content) (embed doc1.content)) := by
    nlinarith [mul_pos hnz hnz]
  refine ⟨⟨[doc1], [⟨doc1.id, 0, doc1.content, embed doc1.content⟩]⟩, ?_, rfl, rfl, ?_⟩
  · have hdup : check_duplicate embed ⟨[], []⟩ doc1.content = false := rfl
    have hchunks : chunksOf embed doc1 [((0 : ℤ), (doc1.content.length : ℤ))] =
        [⟨doc1.id, 0, doc1.content, embed doc1.content⟩] := by
      simp [chunksOf, List.enum, List.enumFrom, pySlice_full]
    simp only [store_document, hdup, Bool.false_eq_true, if_false,
      chunkWindows_single C doc1.content.length fuel hpos hfit hfuel, hchunks,
      List.nil_append]
  · have hdup : check_duplicate embed
        ⟨[doc1], [⟨doc1.id, 0, doc1.content, embed doc1.content⟩]⟩
        doc2.content = true := by
      simp [check_duplicate, cosSimGT, hsame, hne, hnz, h39]
    simp [store_document, hdup]

/-- Witness for C7 at a concrete input: a one-character document stored with
chunk_size 1 under the constant embedding [1]. -/
theorem store_document_dedup_witness :
    (0 : ℚ) < dot [1] [1] ∧
    ∃ st1 : MemState,
      store_document (fun _ => [1]) 1 0 1 ⟨[], []⟩ ⟨1, "t", ['a']⟩ = some (st1, true) ∧
      st1.documents = [⟨1, "t", ['a']⟩] ∧ st1.chunks.length = 1 ∧
      store_document (fun _ => [1]) 1 0 1 st1 ⟨2, "u", ['a']⟩ = some (st1, false) := by
  refine ⟨by norm_num [dot], ?_⟩
  exact store_document_dedup (fun _ => [1]) ⟨1, "t", ['a']⟩ ⟨2, "u", ['a']⟩ 1 1
    rfl (by decide) (by decide) (by decide) (by norm_num [dot])

/-! ## Ingestion phase and pipeline sequencing:
`WorkflowOrchestrator._execute_ingestion_phase` and `process_task_pipeline`
(workflow_orchestrator.py 111-202)

Each source descriptor is represented by the outcome of its
`ingestion_agent.process` call (a success result of type `R`, a returned
non-success result, or a raised exception); the planning agent likewise by
the outcome of its single call. -/

/-- Outcome of ingesting one source (workflow_orchestrator.py 166-176): a
success result, a returned result whose status is not success (or no
result), or a raised exception (caught and logged). -/
inductive IngestOutcome (R : Type) where
  | success (result : R)
  | failure
  | raises

/-- Embedding of `_execute_ingestion_phase`: the successful results are
collected in order; failed and raising sources are skipped.  An empty source
list returns the empty list (the early return at 151-153 coincides with the
general case). -/
def execute_ingestion_phase {R : Type} (sources : List (IngestOutcome R)) :
    List R :=
  sources.filterMap (fun o =>
    match o with
    | IngestOutcome.success r => some r
    | IngestOutcome.failure => none
    | IngestOutcome.raises => none)

/-- Outcome of the single planning call (workflow_orchestrator.py 181-202):
a success result carrying the plan, a returned non-success result, or a
raised exception (converted at 200-202 into a non-success result). -/
inductive PlanOutcome (P : Type) where
  | success (plan : P)
  | failStatus
  | raises

/-- Output of `process_task_pipeline`: an error dictionary with a message,
or the result of the generation and quality loop. -/
inductive PipelineOutput (G : Type) where
  | error (message : String)
  | completed (result : LoopResult G)

/-- Pipeline run record: the output plus ghost flags recording whether the
planning phase and the generation loop were entered. -/
structure PipelineTrace (G : Type) where
  output : PipelineOutput G
  planning_ran : Bool
  loop_ran : Bool

/-- Embedding of `process_task_pipeline` (workflow_orchestrator.py 111-144):
ingestion runs first; an empty ingestion-result list fails the task with the
no-content message before planning; a non-success planning result fails the
task after planning; otherwise the generation and quality loop runs on the
ingestion results and the plan. -/
def process_task_pipeline {R P G : Type} (sources : List (IngestOutcome R))
    (plan : PlanOutcome P) (loopRun : List R → P → LoopResult G) :
    PipelineTrace G :=
  let ingestion_results := execute_ingestion_phase sources
  if ingestion_results.isEmpty then
    ⟨PipelineOutput.error "No content successfully ingested", false, false⟩
  else
    match plan with
    | PlanOutcome.success p =>
        ⟨PipelineOutput.completed (loopRun ingestion_results p), true, true⟩
    | PlanOutcome.failStatus =>
        ⟨PipelineOutput.error "Planning phase failed", true, false⟩
    | PlanOutcome.raises =>
        ⟨PipelineOutput.error "Planning phase failed", true, false⟩

/-! ## Pipeline entry point: `WorkflowOrchestrator.generate_content_pipeline`
(workflow_orchestrator.py 469-534) -/

/-- Task record as assembled at workflow_orchestrator.py 496-505; the source
descriptors stay abstract. -/
structure TaskRec (S : Type) where
  id : String
  topic : String
  content_type : String
  audience_level : String
  tone : String
  sources : List S
  created_at : String

/-- Synchronous reply of the entry point: a typed error dictionary, or the
queued acknowledgement carrying the task id. -/
inductive SubmitResponse where
  | error (message : String)
  | queued (task_id : String)

/-- Embedding of `generate_content_pipeline`: an empty topic or content type
(Python falsiness of the string) or an empty source list is rejected
synchronously with an error and the queue is left untouched; otherwise a
task with id `content_type + topic-with-underscores + timestamp` is appended
to the queue and a queued reply returned.  The timestamp is an explicit
input. -/
def generate_content_pipeline {S : Type} (topic content_type : String)
    (sources : List S) (audience_level tone timestamp : String)
    (queue : List (TaskRec S)) : SubmitResponse × List (TaskRec S) :=
  if topic = "" ∨ content_type = "" then
    (SubmitResponse.error "Topic and content_type are required", queue)
  else if sources.isEmpty then
    (SubmitResponse.error "At least one knowledge source is required", queue)
  else
    let content_id := content_type ++ "_" ++ (topic.replace " " "_") ++ "_" ++ timestamp
    (SubmitResponse.queued content_id,
      queue ++ [⟨content_id, topic, content_type, audience_level, tone, sources, timestamp⟩])

lemma genQualityLoop_bound {G : Type} (gen : ℕ → GenOutcome G)
    (qual : ℕ → QualOutcome) (minq : ℚ) :
    ∀ rem it sc (co : LoopContent G) recs p,
      (genQualityLoop gen qual minq rem it sc co recs p).iterations_used ≤ it + rem ∧
      (genQualityLoop gen qual minq rem it sc co recs p).pairs_produced ≤ p + rem := by
  intro rem
  induction rem with
  | zero =>
      intro it sc co recs p
      simp [genQualityLoop, finalizeLoop]
  | succ n ih =>
      intro it sc co recs p
      cases hg : gen (it + 1) with
      | raises => simp only [genQualityLoop, hg, finalizeLoop]; omega
      | invalid => simp only [genQualityLoop, hg, finalizeLoop]; omega
      | ok c =>
          cases hq : qual (it + 1) with
          | raises => simp only [genQualityLoop, hg, hq, finalizeLoop]; omega
          | failStatus s => simp only [genQualityLoop, hg, hq, finalizeLoop]; omega
          | ok s recs2 =>
              by_cases hs : minq ≤ s
              · simp only [genQualityLoop, hg, hq, if_pos hs, finalizeLoop]; omega
              · simp only [genQualityLoop, hg, hq, if_neg hs]
                have h := ih (it + 1) s (LoopContent.valid c) recs2 (p + 1)
                omega

/-- C3: for every pair of agent oracles, iteration cap M and threshold, the
generate and assess loop runs at most M iterations and produces at most M
(GeneratedContent, QualityReport) pairs; termination holds by construction,
the embedding being a total function of the remaining iteration budget. -/
theorem generation_loop_bounded {G : Type} (gen : ℕ → GenOutcome G)
    (qual : ℕ → QualOutcome) (M : ℕ) (minq : ℚ) :
    (execute_generation_quality_loop gen qual M minq).iterations_used ≤ M ∧
    (execute_generation_quality_loop gen qual M minq).pairs_produced ≤ M := by
  have h := genQualityLoop_bound gen qual minq M 0 0 LoopContent.none [] 0
  simpa [execute_generation_quality_loop] using h

lemma genQualityLoop_threshold {G : Type} (gen : ℕ → GenOutcome G)
    (qual : ℕ → QualOutcome) (minq : ℚ) (k : ℕ)
    (hqk : ∃ s r, qual k = QualOutcome.ok s r ∧ minq ≤ s) :
    ∀ rem it sc (co : LoopContent G) recs p, it < k → k ≤ it + rem →
      (∀ i, it < i → i ≤ k → ∃ c, gen i = GenOutcome.ok c) →
      (∀ i, it < i → i < k → ∃ s r, qual i = QualOutcome.ok s r ∧ s < minq) →
      (genQualityLoop gen qual minq rem it sc co recs p).iterations_used = k ∧
      (genQualityLoop gen qual minq rem it sc co recs p).meets_quality_standards = true := by
  intro rem
  induction rem with
  | zero =>
      intro it sc co recs p h1 h2 _ _
      omega
  | succ n ih =>
      intro it sc co recs p h1 h2 hgen hqual
      obtain ⟨c, hc⟩ := hgen (it + 1) (by omega) (by omega)
      by_cases hik : it + 1 = k
      · obtain ⟨s, r, hqe, hs⟩ := hqk
        rw [← hik] at hqe
        simp only [genQualityLoop, hc, hqe, if_pos hs, finalizeLoop]
        exact ⟨hik, by simp [hs]⟩
      · obtain ⟨s, r, hqe, hs⟩ := hqual (it + 1) (by omega) (by omega)
        simp only [genQualityLoop, hc, hqe, if_neg (not_le.mpr hs)]
        exact ih (it + 1) s (LoopContent.valid c) r (p + 1) (by omega) (by omega)
          (fun i hi hik2 => hgen i (by omega) hik2)
          (fun i hi hik2 => hqual i (by omega) hik2)

/-- C4: if every generation call up to iteration k returns valid content,
the quality oracle scores below the threshold before iteration k and at or
above it on iteration k ≤ M, then the loop stops at exactly iteration k and
the result carries meets_quality_standards = true. -/
theorem quality_threshold_convergence {G : Type} (gen : ℕ → GenOutcome G)
    (qual : ℕ → QualOutcome) (M : ℕ) (minq : ℚ) (k : ℕ)
    (h1 : 1 ≤ k) (h2 : k ≤ M)
    (hgen : ∀ i, 1 ≤ i → i ≤ k → ∃ c, gen i = GenOutcome.ok c)
    (hqual : ∀ i, 1 ≤ i → i < k → ∃ s r, qual i = QualOutcome.ok s r ∧ s < minq)
    (hqk : ∃ s r, qual k = QualOutcome.ok s r ∧ minq ≤ s) :
    (execute_generation_quality_loop gen qual M minq).iterations_used = k ∧
    (execute_generation_quality_loop gen qual M minq).meets_quality_standards = true := by
  have h := genQualityLoop_threshold gen qual minq k hqk M 0 0 LoopContent.none [] 0
    (by omega) (by omega) (fun i hi hik => hgen i (by omega) hik)
    (fun i hi hik => hqual i (by omega) hik)
  simpa [execute_generation_quality_loop] using h

/-- Witness for C4: a quality oracle scoring 90 against threshold 80 stops
the loop on iteration 1 of 2 with standards met. -/
theorem quality_threshold_convergence_witness :
    (1 : ℕ) ≤ 2 ∧
    (execute_generation_quality_loop (fun _ => GenOutcome.ok (0 : ℕ))
      (fun _ => QualOutcome.ok 90 []) 2 80).iterations_used = 1 ∧
    (execute_generation_quality_loop (fun _ => GenOutcome.ok (0 : ℕ))
      (fun _ => QualOutcome.ok 90 []) 2 80).meets_quality_standards = true := by
  have h := quality_threshold_convergence (fun _ => GenOutcome.ok (0 : ℕ))
    (fun _ => QualOutcome.ok 90 []) 2 80 1 le_rfl (by omega)
    (fun i _ _ => ⟨0, rfl⟩)
    (fun i ha hb => absurd hb (by omega))
    ⟨90, [], rfl, by norm_num⟩
  exact ⟨by omega, h.1, h.2⟩

/-- C5: the claim states that when the generation agent fails with no
candidate ever produced, the task fails with an error result.  The code
disagrees: the loop result dictionary is built with status success
unconditionally, so when generation raises on the very first iteration the
result is a success result with no content at all. -/
theorem generation_failure_no_candidate_counterexample :
    (execute_generation_quality_loop (fun _ => (GenOutcome.raises : GenOutcome ℕ))
      (fun _ => QualOutcome.raises) 3 75).status = "success" ∧
    (execute_generation_quality_loop (fun _ => (GenOutcome.raises : GenOutcome ℕ))
      (fun _ => QualOutcome.raises) 3 75).content = LoopContent.none ∧
    (execute_generation_quality_loop (fun _ => (GenOutcome.raises : GenOutcome ℕ))
      (fun _ => QualOutcome.raises) 3 75).iterations_used = 1 :=
  ⟨rfl, rfl, rfl⟩

lemma genQualityLoop_abort {G : Type} (gen : ℕ → GenOutcome G)
    (qual : ℕ → QualOutcome) (minq : ℚ) (j : ℕ) (c : ℕ → G)
    (hj : gen j = GenOutcome.raises ∨ gen j = GenOutcome.invalid) :
    ∀ rem it sc recs p, it < j → j ≤ it + rem →
      (∀ i, it < i → i < j → gen i = GenOutcome.ok (c i)) →
      (∀ i, it < i → i < j → ∃ s r, qual i = QualOutcome.ok s r ∧ s < minq) →
      ∀ co : LoopContent G,
        co = (if it = 0 then LoopContent.none else LoopContent.valid (c it)) →
      (genQualityLoop gen qual minq rem it sc co recs p).iterations_used = j ∧
      (genQualityLoop gen qual minq rem it sc co recs p).status = "success" ∧
      (gen j = GenOutcome.raises →
        (genQualityLoop gen qual minq rem it sc co recs p).content =
          (if j = 1 then LoopContent.none else LoopContent.valid (c (j - 1)))) ∧
      (gen j = GenOutcome.invalid →
        (genQualityLoop gen qual minq rem it sc co recs p).content =
          LoopContent.invalid) := by
  intro rem
  induction rem with
  | zero =>
      intro it sc recs p h1 h2 _ _ _ _
      omega
  | succ n ih =>
      intro it sc recs p h1 h2 hgen hqual co hco
      by_cases hij : it + 1 = j
      · cases hj with
        | inl hr =>
            have hgenj : gen (it + 1) = GenOutcome.raises := by rw [hij]; exact hr
            simp only [genQualityLoop, hgenj]
            refine ⟨hij, rfl, ?_, ?_⟩
            · intro _
              show co = _
              rw [hco, ← hij]
              by_cases h0 : it = 0
              · simp [h0]
              · rw [if_neg h0, if_neg (by omega)]
                have hsub : it + 1 - 1 = it := by omega
                rw [hsub]
            · intro hinv
              rw [hr] at hinv
              exact absurd hinv (by simp)
        | inr hi =>
            have hgenj : gen (it + 1) = GenOutcome.invalid := by rw [hij]; exact hi
            simp only [genQualityLoop, hgenj]
            refine ⟨hij, rfl, ?_, fun _ => rfl⟩
            intro hr
            rw [hi] at hr
            exact absurd hr (by simp)
      · have hij2 : it + 1 < j := by omega
        have hgc : gen (it + 1) = GenOutcome.ok (c (it + 1)) :=
          hgen (it + 1) (by omega) hij2
        obtain ⟨s, r, hqe, hs⟩ := hqual (it + 1) (by omega) hij2
        simp only [genQualityLoop, hgc, hqe, if_neg (not_le.mpr hs)]
        exact ih (it + 1) s r (p + 1) (by omega) (by omega)
          (fun i ha hb => hgen i (by omega) hb)
          (fun i ha hb => hqual i (by omega) hb)
          (LoopContent.valid (c (it + 1))) (by rw [if_neg (by omega)])

/-- C5 (amended): if the generation agent fails on iteration j ≤ M (raises,
or returns an object failing the isinstance check), all earlier iterations
having produced valid candidates scored below the threshold, then the loop
aborts at iteration j and the result always has status success: on a raise
it carries the last successfully produced candidate when one exists and no
content when j = 1; on an invalid return it carries the invalid object.  The
task never fails with an error result through this path. -/
theorem generation_failure_aborts {G : Type} (gen : ℕ → GenOutcome G)
    (qual : ℕ → QualOutcome) (M : ℕ) (minq : ℚ) (j : ℕ) (c : ℕ → G)
    (h1 : 1 ≤ j) (h2 : j ≤ M)
    (hgen : ∀ i, 1 ≤ i → i < j → gen i = GenOutcome.ok (c i))
    (hqual : ∀ i, 1 ≤ i → i < j → ∃ s r, qual i = QualOutcome.ok s r ∧ s < minq)
    (hj : gen j = GenOutcome.raises ∨ gen j = GenOutcome.invalid) :
    (execute_generation_quality_loop gen qual M minq).iterations_used = j ∧
    (execute_generation_quality_loop gen qual M minq).status = "success" ∧
    (gen j = GenOutcome.raises →
      (execute_generation_quality_loop gen qual M minq).content =
        (if j = 1 then LoopContent.none else LoopContent.valid (c (j - 1)))) ∧
    (gen j = GenOutcome.invalid →
      (execute_generation_quality_loop gen qual M minq).content =
        LoopContent.invalid) := by
  have h := genQualityLoop_abort gen qual minq j c hj M 0 0 [] 0
    (by omega) (by omega) (fun i hi hik => hgen i (by omega) hik)
    (fun i hi hik => hqual i (by omega) hik)
    LoopContent.none (by rw [if_pos rfl])
  simpa [execute_generation_quality_loop] using h

/-- Witness for C5: generation succeeds on iteration 1 with a low score and
raises on iteration 2; the loop stops there with the iteration 1 candidate
and a success status. -/
theorem generation_failure_aborts_witness :
    (execute_generation_quality_loop
      (fun i => if i = 1 then GenOutcome.ok (1 : ℕ) else GenOutcome.raises)
      (fun _ => QualOutcome.ok 10 []) 3 75).iterations_used = 2 ∧
    (execute_generation_quality_loop
      (fun i => if i = 1 then GenOutcome.ok (1 : ℕ) else GenOutcome.raises)
      (fun _ => QualOutcome.ok 10 []) 3 75).status = "success" ∧
    (execute_generation_quality_loop
      (fun i => if i = 1 then GenOutcome.ok (1 : ℕ) else GenOutcome.raises)
      (fun _ => QualOutcome.ok 10 []) 3 75).content = LoopContent.valid 1 := by
  have h := generation_failure_aborts
    (fun i => if i = 1 then GenOutcome.ok (1 : ℕ) else GenOutcome.raises)
    (fun _ => QualOutcome.ok 10 []) 3 75 2 (fun i => i) (by omega) (by omega)
    (fun i ha hb => by
      have hi : i = 1 := by omega
      subst hi
      rfl)
    (fun i ha hb => ⟨10, [], by
      have hi : i = 1 := by omega
      subst hi
      rfl, by norm_num⟩)
    (Or.inl rfl)
  refine ⟨h.1, h.2.1, ?_⟩
  have h3 := h.2.2.1 rfl
  simpa using h3

/-- C6: a source whose ingestion fails (non-success result or exception) is
skipped without affecting the collected results or failing the task; the
pipeline enters Planning whenever at least one source succeeds; and when no
source succeeds, the task fails with the no-content-ingested error before
Planning, and neither Planning nor the generation loop runs. -/
theorem ingestion_skip_and_no_content {R P G : Type}
    (sources : List (IngestOutcome R)) (plan : PlanOutcome P)
    (loopRun : List R → P → LoopResult G) :
    (∀ (pre post : List (IngestOutcome R)) (o : IngestOutcome R),
      (∀ r, o ≠ IngestOutcome.success r) →
      execute_ingestion_phase (pre ++ o :: post) =
        execute_ingestion_phase (pre ++ post)) ∧
    ((∃ r, IngestOutcome.success r ∈ sources) →
      (process_task_pipeline sources plan loopRun).planning_ran = true) ∧
    ((∀ r, IngestOutcome.success r ∉ sources) →
      (process_task_pipeline sources plan loopRun).output =
        PipelineOutput.error "No content successfully ingested" ∧
      (process_task_pipeline sources plan loopRun).planning_ran = false ∧
      (process_task_pipeline sources plan loopRun).loop_ran = false) := by
  refine ⟨?_, ?_, ?_⟩
  · intro pre post o ho
    cases o with
    | success r => exact absurd rfl (ho r)
    | failure =>
        simp [execute_ingestion_phase, List.filterMap_append, List.filterMap_cons]
    | raises =>
        simp [execute_ingestion_phase, List.filterMap_append, List.filterMap_cons]
  · rintro ⟨r, hr⟩
    have hmem : r ∈ execute_ingestion_phase sources := by
      unfold execute_ingestion_phase
      exact List.mem_filterMap.mpr ⟨IngestOutcome.success r, hr, rfl⟩
    cases h : execute_ingestion_phase sources with
    | nil =>
        rw [h] at hmem
        cases hmem
    | cons a l =>
        cases plan <;> simp [process_task_pipeline, h]
  · intro hall
    have hnil : execute_ingestion_phase sources = [] := by
      unfold execute_ingestion_phase
      rw [List.filterMap_eq_nil_iff]
      intro a ha
      cases a with
      | success r => exact absurd ha (hall r)
      | failure => rfl
      | raises => rfl
    simp [process_task_pipeline, hnil]

/-- Witness for C6: a raising source is skipped next to a succeeding one;
one success among two sources enters Planning; a single failing source
yields the no-content error. -/
theorem ingestion_skip_and_no_content_witness :
    execute_ingestion_phase
        ([] ++ IngestOutcome.raises :: [IngestOutcome.success (5 : ℕ)]) =
      execute_ingestion_phase ([] ++ [IngestOutcome.success (5 : ℕ)]) ∧
    (process_task_pipeline [IngestOutcome.failure, IngestOutcome.success (5 : ℕ)]
      (PlanOutcome.success (0 : ℕ))
      (fun _ _ => (finalizeLoop 75 0 0 LoopContent.none 0 : LoopResult ℕ))).planning_ran = true ∧
    (process_task_pipeline ([IngestOutcome.failure] : List (IngestOutcome ℕ))
      (PlanOutcome.success (0 : ℕ))
      (fun _ _ => (finalizeLoop 75 0 0 LoopContent.none 0 : LoopResult ℕ))).output =
        PipelineOutput.error "No content successfully ingested" := by
  have T1 := ingestion_skip_and_no_content
    [IngestOutcome.failure, IngestOutcome.success (5 : ℕ)]
    (PlanOutcome.success (0 : ℕ))
    (fun _ _ => (finalizeLoop 75 0 0 LoopContent.none 0 : LoopResult ℕ))
  have T2 := ingestion_skip_and_no_content
    ([IngestOutcome.failure] : List (IngestOutcome ℕ))
    (PlanOutcome.success (0 : ℕ))
    (fun _ _ => (finalizeLoop 75 0 0 LoopContent.none 0 : LoopResult ℕ))
  refine ⟨T1.1 [] [IngestOutcome.success 5] IngestOutcome.raises
      (fun r h => IngestOutcome.noConfusion h),
    T1.2.1 ⟨5, by simp⟩, ?_⟩
  exact (T2.2.2 (fun r hr => by simp at hr)).1

/-- C9: a submission with an empty topic, an empty content type or an empty
source list is rejected synchronously with a typed error and the task queue
is unchanged, so no worker ever sees such a request. -/
theorem submit_validation_rejects {S : Type} (topic content_type : String)
    (sources : List S) (audience_level tone timestamp : String)
    (queue : List (TaskRec S))
    (h : topic = "" ∨ content_type = "" ∨ sources = []) :
    (∃ msg, (generate_content_pipeline topic content_type sources
      audience_level tone timestamp queue).1 = SubmitResponse.error msg) ∧
    (generate_content_pipeline topic content_type sources
      audience_level tone timestamp queue).2 = queue := by
  unfold generate_content_pipeline
  rcases h with h | h | h
  · rw [if_pos (Or.inl h)]
    exact ⟨⟨_, rfl⟩, rfl⟩
  · rw [if_pos (Or.inr h)]
    exact ⟨⟨_, rfl⟩, rfl⟩
  · by_cases h12 : topic = "" ∨ content_type = ""
    · rw [if_pos h12]
      exact ⟨⟨_, rfl⟩, rfl⟩
    · rw [if_neg h12, if_pos (by simp [h])]
      exact ⟨⟨_, rfl⟩, rfl⟩

/-- Witness for C9: an empty topic is rejected and the queue stays empty. -/
theorem submit_validation_rejects_witness :
    (("" : String) = "" ∨ ("tutorial" : String) = "" ∨ ([] : List ℕ) = []) ∧
    (∃ msg, (generate_content_pipeline "" "tutorial" ([] : List ℕ)
      "intermediate" "conversational" "ts" []).1 = SubmitResponse.error msg) ∧
    (generate_content_pipeline "" "tutorial" ([] : List ℕ)
      "intermediate" "conversational" "ts" []).2 = [] := by
  have h := submit_validation_rejects "" "tutorial" ([] : List ℕ)
    "intermediate" "conversational" "ts" [] (Or.inl rfl)
  exact ⟨Or.inl rfl, h.1, h.2⟩

lemma mem_dedup_first {Q : Type} :
    ∀ (seen : List ℕ) (l : List (SearchResult Q)) (r : SearchResult Q),
      r ∈ dedup_first_by_id seen l → r ∈ l := by
  intro seen l
  induction l generalizing seen with
  | nil =>
      intro r h
      simp [dedup_first_by_id] at h
  | cons x rest ih =>
      intro r h
      simp only [dedup_first_by_id] at h
      by_cases hx : x.id ∈ seen
      · rw [if_pos hx] at h
        exact List.mem_cons_of_mem x (ih seen r h)
      · rw [if_neg hx] at h
        rcases List.mem_cons.mp h with h1 | h2
        · exact h1 ▸ List.mem_cons_self x rest
        · exact List.mem_cons_of_mem x (ih _ r h2)

lemma dedup_first_find {Q : Type} :
    ∀ (seen : List ℕ) (l : List (SearchResult Q)) (r : SearchResult Q),
      r ∈ dedup_first_by_id seen l →
      r.id ∉ seen ∧ l.find? (fun x => x.id == r.id) = some r := by
  intro seen l
  induction l generalizing seen with
  | nil =>
      intro r h
      simp [dedup_first_by_id] at h
  | cons x rest ih =>
      intro r h
      simp only [dedup_first_by_id] at h
      by_cases hx : x.id ∈ seen
      · rw [if_pos hx] at h
        obtain ⟨hns, hf⟩ := ih seen r h
        have hne : ¬(x.id == r.id) = true := by
          intro hb
          exact hns ((beq_iff_eq.mp hb) ▸ hx)
        exact ⟨hns, by rw [List.find?_cons_of_neg rest hne]; exact hf⟩
      · rw [if_neg hx] at h
        rcases List.mem_cons.mp h with h1 | h2
        · subst h1
          exact ⟨hx, List.find?_cons_of_pos rest (by simp)⟩
        · obtain ⟨hns, hf⟩ := ih (x.id :: seen) r h2
          have hxr : x.id ≠ r.id := fun he => hns (he ▸ List.mem_cons_self _ _)
          refine ⟨fun hs => hns (List.mem_cons_of_mem _ hs), ?_⟩
          rw [List.find?_cons_of_neg rest (by simpa using hxr)]
          exact hf

lemma nodup_dedup_first {Q : Type} :
    ∀ (seen : List ℕ) (l : List (SearchResult Q)),
      ((dedup_first_by_id seen l).map (fun r => r.id)).Nodup := by
  intro seen l
  induction l generalizing seen with
  | nil => simp [dedup_first_by_id]
  | cons x rest ih =>
      simp only [dedup_first_by_id]
      by_cases hx : x.id ∈ seen
      · rw [if_pos hx]
        exact ih seen
      · rw [if_neg hx]
        refine List.nodup_cons.mpr ⟨?_, ih (x.id :: seen)⟩
        intro hmem
        obtain ⟨r, hr, hid⟩ := List.mem_map.mp hmem
        obtain ⟨hns, _⟩ := dedup_first_find (x.id :: seen) rest r hr
        exact hns (hid ▸ List.mem_cons_self _ _)

lemma mem_search_all_results_score {Q : Type} (concepts : List ConceptRec)
    (rels : List RelationshipRec) (similarity : Q → SearchChunk → ℚ)
    (expanded_queries : List Q) (chunks : List SearchChunk) (min_score : ℚ)
    (r : SearchResult Q)
    (h : r ∈ search_all_results concepts rels similarity expanded_queries chunks min_score) :
    min_score ≤ r.score := by
  obtain ⟨q, hq, hmem⟩ := List.mem_flatMap.mp h
  obtain ⟨ch, hch, heq⟩ := List.mem_filterMap.mp hmem
  by_cases h1 : ch.embedding.isEmpty
  · rw [if_pos h1] at heq
    cases heq
  · rw [if_neg h1] at heq
    by_cases h2 : min_score ≤ similarity q ch
    · rw [if_pos h2] at heq
      have hr := Option.some.inj heq
      have hb := calculate_relationship_bonus_nonneg concepts rels ch.document_id
      rw [← hr]
      calc min_score ≤ similarity q ch := h2
        _ ≤ similarity q ch + calculate_relationship_bonus concepts rels ch.document_id := by
            linarith
    · rw [if_neg h2] at heq
      cases heq

/-- C2: the claim states that the search deduplicates by chunk id keeping
the highest combined score any query variant assigned.  The code keeps the
first occurrence instead: with two query variants scoring the same chunk
1/2 + 0 and 9/10 + 0, both results are gathered but the returned list keeps
the variant-0 score 1/2, not the maximum 9/10. -/
theorem search_dedup_keeps_first_counterexample :
    (search_relevant_content [] [] simTwoQueries [0, 1]
        [⟨7, [1], ['x'], none⟩] 10 (3 / 10)).map
        (fun r => (r.id, r.query_used, r.score)) = [(7, 0, 1 / 2)] ∧
    (search_all_results [] [] simTwoQueries [0, 1]
        [⟨7, [1], ['x'], none⟩] (3 / 10)).map
        (fun r => (r.id, r.query_used, r.score)) = [(7, 0, 1 / 2), (7, 1, 9 / 10)] ∧
    ((1 : ℚ) / 2 < 9 / 10) := by
  refine ⟨?_, ?_, by norm_num⟩
  · norm_num [search_relevant_content, search_all_results, dedup_first_by_id,
      simTwoQueries, calculate_relationship_bonus, List.insertionSort,
      List.orderedInsert]
  · norm_num [search_all_results, simTwoQueries, calculate_relationship_bonus,
      List.filterMap_cons]

/-- C2 (amended): the search deduplicates by chunk id keeping, for each
chunk, the result of the first query variant that matched it (the first
occurrence in gathering order, not the highest score); it sorts the
surviving results in descending order of combined score and returns the top
n_results of them (all of them when fewer than n_results survive): the
output is duplicate-free, sorted descending, of length exactly
`min n_results (number of deduplicated results)`, every returned result has
combined score at least min_score, and every deduplicated result left out
scores no higher than any returned one. -/
theorem search_relevant_content_spec {Q : Type} (concepts : List ConceptRec)
    (rels : List RelationshipRec) (similarity : Q → SearchChunk → ℚ)
    (expanded_queries : List Q) (chunks : List SearchChunk)
    (n_results : ℕ) (min_score : ℚ) :
    (∀ r ∈ search_relevant_content concepts rels similarity expanded_queries
        chunks n_results min_score,
      min_score ≤ r.score ∧
      (search_all_results concepts rels similarity expanded_queries chunks
        min_score).find? (fun x => x.id == r.id) = some r) ∧
    List.Sorted (fun a b => b.score ≤ a.score)
      (search_relevant_content concepts rels similarity expanded_queries
        chunks n_results min_score) ∧
    (search_relevant_content concepts rels similarity expanded_queries
      chunks n_results min_score).length ≤ n_results ∧
    ((search_relevant_content concepts rels similarity expanded_queries
      chunks n_results min_score).map (fun r => r.id)).Nodup ∧
    (search_relevant_content concepts rels similarity expanded_queries
      chunks n_results min_score).length =
      min n_results (dedup_first_by_id []
        (search_all_results concepts rels similarity expanded_queries chunks
          min_score)).length ∧
    (∀ r ∈ dedup_first_by_id []
        (search_all_results concepts rels similarity expanded_queries chunks
          min_score),
      r ∉ search_relevant_content concepts rels similarity expanded_queries
        chunks n_results min_score →
      ∀ s ∈ search_relevant_content concepts rels similarity expanded_queries
        chunks n_results min_score, r.score ≤ s.score) := by
  haveI htot : IsTotal (SearchResult Q) (fun a b => b.score ≤ a.score) :=
    ⟨fun a b => le_total b.score a.score⟩
  haveI htr : IsTrans (SearchResult Q) (fun a b => b.score ≤ a.score) :=
    ⟨fun a b c hab hbc => le_trans hbc hab⟩
  have hmemall : ∀ r ∈ search_relevant_content concepts rels similarity
      expanded_queries chunks n_results min_score,
      r ∈ dedup_first_by_id []
        (search_all_results concepts rels similarity expanded_queries chunks
          min_score) := by
    intro r hr
    simp only [search_relevant_content] at hr
    have h1 := List.mem_of_mem_take hr
    exact (List.perm_insertionSort (fun a b => b.score ≤ a.score) _).mem_iff.mp h1
  refine ⟨?_, ?_, ?_, ?_, ?_, ?_⟩
  · intro r hr
    have hd := hmemall r hr
    refine ⟨mem_search_all_results_score concepts rels similarity
      expanded_queries chunks min_score r (mem_dedup_first _ _ r hd), ?_⟩
    exact (dedup_first_find [] _ r hd).2
  · have hs := List.sorted_insertionSort (fun a b => b.score ≤ a.score)
      (dedup_first_by_id []
        (search_all_results concepts rels similarity expanded_queries chunks
          min_score))
    simp only [search_relevant_content]
    exact List.Pairwise.sublist (List.take_sublist _ _) hs
  · simp only [search_relevant_content]
    rw [List.length_take]
    exact min_le_left _ _
  · have hnd := nodup_dedup_first []
      (search_all_results concepts rels similarity expanded_queries chunks
        min_score)
    have hperm := (List.perm_insertionSort (fun a b => b.score ≤ a.score)
      (dedup_first_by_id []
        (search_all_results concepts rels similarity expanded_queries chunks
          min_score))).map (fun r => r.id)
    have hnd2 := hperm.nodup_iff.mpr hnd
    simp only [search_relevant_content]
    exact List.Sublist.nodup ((List.take_sublist _ _).map _) hnd2
  · have hl := (List.perm_insertionSort (fun a b : SearchResult Q => b.score ≤ a.score)
      (dedup_first_by_id []
        (search_all_results concepts rels similarity expanded_queries chunks
          min_score))).length_eq
    simp only [search_relevant_content]
    rw [List.length_take, hl]
  · intro r hr hnot s hs
    simp only [search_relevant_content] at hnot hs
    have hrs : r ∈ (dedup_first_by_id []
        (search_all_results concepts rels similarity expanded_queries chunks
          min_score)).insertionSort (fun a b => b.score ≤ a.score) :=
      (List.perm_insertionSort (fun a b => b.score ≤ a.score) _).mem_iff.mpr hr
    have hsorted := List.sorted_insertionSort (fun a b => b.score ≤ a.score)
      (dedup_first_by_id []
        (search_all_results concepts rels similarity expanded_queries chunks
          min_score))
    rw [← List.take_append_drop n_results
      ((dedup_first_by_id []
        (search_all_results concepts rels similarity expanded_queries chunks
          min_score)).insertionSort (fun a b => b.score ≤ a.score))] at hsorted hrs
    have hrd : r ∈ ((dedup_first_by_id []
        (search_all_results concepts rels similarity expanded_queries chunks
          min_score)).insertionSort (fun a b => b.score ≤ a.score)).drop n_results := by
      rcases List.mem_append.mp hrs with h1 | h2
      · exact absurd h1 hnot
      · exact h2
    exact (List.pairwise_append.mp hsorted).2.2 s hs r hrd

/-- Witness for C2: on a one-query search over one chunk, the single
returned result reaches the threshold and is the first occurrence of its
chunk id among the gathered results; on a one-query search over two chunks
with limit 1, the output has length min 1 2 = 1 and the excluded
lower-scoring chunk scores no higher than the returned one. -/
theorem search_relevant_content_spec_witness :
    (∃ r, r ∈ search_relevant_content [] [] simTwoQueries [0]
        [⟨7, [1], ['x'], none⟩] 10 (3 / 10) ∧
      (3 / 10 : ℚ) ≤ r.score ∧
      (search_all_results [] [] simTwoQueries [0]
        [⟨7, [1], ['x'], none⟩] (3 / 10)).find?
          (fun x => x.id == r.id) = some r) ∧
    (search_relevant_content [] [] simByChunk [0]
      [⟨7, [1], ['x'], none⟩, ⟨8, [1], ['y'], none⟩] 1 (3 / 10)).length =
      min 1 (dedup_first_by_id [] (search_all_results [] [] simByChunk [0]
        [⟨7, [1], ['x'], none⟩, ⟨8, [1], ['y'], none⟩] (3 / 10))).length ∧
    (⟨['x'], 7, 1 / 2, 0, 1 / 2, 0⟩ : SearchResult ℕ).score ≤
      (⟨['y'], 8, 9 / 10, 0, 9 / 10, 0⟩ : SearchResult ℕ).score := by
  have hout : search_relevant_content [] [] simTwoQueries [0]
      [⟨7, [1], ['x'], none⟩] 10 (3 / 10) =
      [⟨['x'], 7, 1 / 2, 0, 1 / 2, 0⟩] := by
    norm_num [search_relevant_content, search_all_results, dedup_first_by_id,
      simTwoQueries, calculate_relationship_bonus, List.insertionSort,
      List.orderedInsert]
  have hmem : (⟨['x'], 7, 1 / 2, 0, 1 / 2, 0⟩ : SearchResult ℕ) ∈
      search_relevant_content [] [] simTwoQueries [0]
        [⟨7, [1], ['x'], none⟩] 10 (3 / 10) := by
    rw [hout]
    exact List.mem_singleton.mpr rfl
  have h := (search_relevant_content_spec [] [] simTwoQueries [0]
    [⟨7, [1], ['x'], none⟩] 10 (3 / 10)).1 _ hmem
  have hu : dedup_first_by_id [] (search_all_results [] [] simByChunk [0]
      [⟨7, [1], ['x'], none⟩, ⟨8, [1], ['y'], none⟩] (3 / 10)) =
      [⟨['x'], 7, 1 / 2, 0, 1 / 2, 0⟩, ⟨['y'], 8, 9 / 10, 0, 9 / 10, 0⟩] := by
    norm_num [search_all_results, dedup_first_by_id, simByChunk,
      calculate_relationship_bonus, List.filterMap_cons]
  have hout2 : search_relevant_content [] [] simByChunk [0]
      [⟨7, [1], ['x'], none⟩, ⟨8, [1], ['y'], none⟩] 1 (3 / 10) =
      [⟨['y'], 8, 9 / 10, 0, 9 / 10, 0⟩] := by
    simp only [search_relevant_content, hu]
    norm_num [List.insertionSort, List.orderedInsert]
  have h2 := search_relevant_content_spec [] [] simByChunk [0]
    [⟨7, [1], ['x'], none⟩, ⟨8, [1], ['y'], none⟩] 1 (3 / 10)
  refine ⟨⟨_, hmem, h.1, h.2⟩, h2.2.2.2.2.1, ?_⟩
  refine h2.2.2.2.2.2 _ (by rw [hu]; simp) ?_ _ (by rw [hout2]; exact List.mem_singleton.mpr rfl)
  rw [hout2]
  intro hmem7
  have hid := congrArg (fun t : SearchResult ℕ => t.id) (List.mem_singleton.mp hmem7)
  simp at hid

end AgenticSpec
